import Mathlib

/-!
Verification of the Volkswagen car controller core (opendbc fork):
steering command generators (MQB torque path, MEB curvature/power path),
longitudinal jerk/control limit functions, the EPS fault-state tracker
and the smootherstep transition helper.

Floating-point arithmetic of the Python source is embedded over `ℚ`;
hardware torque units over `ℤ`.  External collaborators (the PT2 smoothing
filter, the driver-torque-aware rate limiter and the speed-aware angle
rate limiter) are taken as function parameters, matching their black-box
contract in the design.  Numeric platform constants that live in the
(absent) values file are kept as abstract parameters of a structure.
-/

/-- Fixed base control period, `DT_CTRL = 0.01` s. -/
def DT_CTRL : ℚ := 1/100

/-- Embedding of `np.clip(x, lo, hi)`. -/
def clip (x lo hi : ℚ) : ℚ := max lo (min x hi)

/-- Embedding of `np.interp(x, [x0, x1], [y0, y1])`: clamp outside the
breakpoints, linear in between. -/
def interp2 (x x0 x1 y0 y1 : ℚ) : ℚ :=
  if x ≤ x0 then y0
  else if x1 ≤ x then y1
  else y0 + (x - x0) * (y1 - y0) / (x1 - x0)

/-- Embedding of `np.interp(x, [x0, x1, x2], [y0, y1, y2])` for sorted
breakpoints. -/
def interp3 (x x0 x1 x2 y0 y1 y2 : ℚ) : ℚ :=
  if x ≤ x1 then interp2 x x0 x1 y0 y1 else interp2 x x1 x2 y1 y2

/-- Embedding of `get_long_jerk_limits` from the car controller: computes
the asymmetric jerk bounds and the carried (unclipped) jerk estimate. -/
def get_long_jerk_limits (accel accel_last a_ego dt jerk_prev : ℚ)
    («override» : Bool) : ℚ × ℚ × ℚ :=
  let jerk_limit : ℚ := 5
  let jerk_limit_min : ℚ := 1/2
  let factor_up : ℚ := 2
  let factor_down : ℚ := 3
  let error_gain : ℚ := 6/10
  if «override» then
    (jerk_limit_min, jerk_limit_min, 0)
  else
    let accel_diff := (accel - accel_last) / dt
    let jerk_raw := 9/10 * jerk_prev + 1/10 * accel_diff
    let a_error := accel - a_ego
    let jerk_raw := jerk_raw + a_error * error_gain
    let jerk_up := jerk_raw * factor_up
    let jerk_down := -jerk_raw * factor_down
    let jerk_up := max jerk_limit_min (min jerk_up jerk_limit)
    let jerk_down := max jerk_limit_min (min jerk_down jerk_limit)
    (jerk_up, jerk_down, jerk_raw)

/-- Embedding of `get_long_control_limits` from the car controller:
distance/speed-dependent upper and lower longitudinal control limits. -/
def get_long_control_limits (speed set_speed distance : ℚ) : ℚ × ℚ :=
  let lower_limit_factor : ℚ := 48/1000
  let lower_limit_min : ℚ := 0
  let lower_limit_max : ℚ := lower_limit_factor * 6
  let upper_limit_factor : ℚ := 625/10000
  let upper_limit_min : ℚ := 0
  let upper_limit_max : ℚ := upper_limit_factor * 2
  let upper_limit := interp2 distance 0 100 upper_limit_min upper_limit_max
  let set_speed_diff_up := max 0 (|speed| - |set_speed|)
  let set_speed_diff_up_factor := interp2 set_speed_diff_up 1 (7/4) 1 0
  let lower_limit := interp3 distance 0 6 100 lower_limit_min lower_limit_factor lower_limit_max
  let lower_limit := lower_limit * set_speed_diff_up_factor
  (upper_limit, lower_limit)

/-- Embedding of `smootherstep`: the fifth-order polynomial
`6 p^5 - 15 p^4 + 10 p^3`. -/
def smootherstep (p : ℚ) : ℚ := 6 * p^5 - 15 * p^4 + 10 * p^3

/-- State of a `SmootherstepTransition` instance. -/
structure SmootherstepTransition where
  T : ℚ
  start_value : ℚ
  target_value : ℚ
  current_value : ℚ
  elapsed : ℚ
  deriving Repr, DecidableEq

/-- Embedding of `SmootherstepTransition.set_target`: latch the current
value as the new start, set the target, reset the elapsed time. -/
def SmootherstepTransition.set_target (s : SmootherstepTransition)
    (new_target : ℚ) : SmootherstepTransition :=
  { s with start_value := s.current_value, target_value := new_target, elapsed := 0 }

/-- Embedding of `SmootherstepTransition.update`: advance elapsed time by
`dt` and return the interpolated (or final) value, which is also stored. -/
def SmootherstepTransition.update (s : SmootherstepTransition) (dt : ℚ) :
    SmootherstepTransition × ℚ :=
  let e := s.elapsed + dt
  if e < s.T then
    let p := e / s.T
    let alpha := smootherstep p
    let v := s.start_value + alpha * (s.target_value - s.start_value)
    ({ s with elapsed := e, current_value := v }, v)
  else
    ({ s with elapsed := e, current_value := s.target_value }, s.target_value)

/-- Fold a list of `update` calls, keeping only the state. -/
def runUpdates (s : SmootherstepTransition) (dts : List ℚ) : SmootherstepTransition :=
  dts.foldl (fun st dt => (st.update dt).1) s

/-- Raw EPS HCA status values as decoded from the status value table; any
value outside the table (including a missing entry) is `other`. -/
inductive HcaStatus where
  | disabled
  | initializing
  | ready
  | active
  | rejected
  | preempted
  | fault
  | other
  deriving Repr, DecidableEq

/-- Result of one `update_hca_state` call: the updated one-way
initialization latch and the two advisory fault flags. -/
structure HcaFaults where
  eps_init_complete : Bool
  temp_fault : Bool
  perm_fault : Bool
  deriving Repr, DecidableEq

/-- Embedding of `CarState.update_hca_state`: update the initialization
latch, then classify the raw status into temporary/permanent fault flags
(Python operator precedence: `and` binds tighter than `or`). -/
def update_hca_state (frame : ℕ) (eps_init_complete : Bool)
    (hca_status : HcaStatus) (drive_mode : Bool) : HcaFaults :=
  let init := eps_init_complete ||
    (hca_status = .disabled ∨ hca_status = .ready ∨ hca_status = .active : Bool) ||
    decide (600 < frame)
  let perm_fault := (drive_mode && decide (hca_status = .disabled)) ||
    (init && decide (hca_status = .fault))
  let temp_fault := (drive_mode && (hca_status = .rejected ∨ hca_status = .preempted : Bool)) ||
    !init
  ⟨init, temp_fault, perm_fault⟩

/-- Modelled from the spec: the numeric platform constants of
`CarControllerParams` (values file absent from the sources) are kept as
abstract rational/integer parameters; theorems assume only the sanity
bounds the design states (nonnegative maxima, positive ramp step, a
user-reduction percentage). -/
structure CarControllerParams where
  CURVATURE_MAX : ℚ
  CURVATURE_ERROR : ℚ
  CURVATURE_POWER_FACTOR : ℚ
  STEERING_POWER_MIN : ℚ
  STEERING_POWER_MAX : ℚ
  STEERING_POWER_STEPS : ℚ
  STEERING_POWER_USER_REDUCTION : ℚ
  STEERING_POWER_MAX_BY_SPEED : ℚ
  STEER_MAX : ℤ
  STEER_STEP : ℚ
  STEER_TIME_STUCK_TORQUE : ℚ
  STEER_TIME_ALERT : ℚ
  deriving Repr, DecidableEq

/-- Per-cycle inputs read by the MEB steering sub-step. -/
structure MebInputs where
  latActive : Bool
  steeringPressed : Bool
  vEgoRaw : ℚ
  csCurvature : ℚ
  ccCurrentCurvature : ℚ
  actuatorsCurvature : ℚ
  deriving Repr, DecidableEq

/-- Outputs of one MEB steering sub-step: the command sent to the rack
and the updated persistent state. -/
structure MebSteerOutputs where
  apply_curvature : ℚ
  steering_power : ℚ
  hca_enabled : Bool
  steering_power_boost : Bool
  deriving Repr, DecidableEq

/-- The steering-power ramp state machine of the MEB active path
(`carcontroller.py` lines 126-137), as a function of the pressed flag,
the clipped power target and the previous power level. -/
def powerRamp (P : CarControllerParams) (pressed : Bool)
    (steering_power_target steering_power_last : ℚ) : ℚ :=
  if steering_power_last < P.STEERING_POWER_MIN then
    min (steering_power_last + P.STEERING_POWER_STEPS) P.STEERING_POWER_MIN
  else if pressed then
    let steering_power_user :=
      max (steering_power_target / 100 * (100 - P.STEERING_POWER_USER_REDUCTION))
        P.STEERING_POWER_MIN
    max (steering_power_last - P.STEERING_POWER_STEPS) steering_power_user
  else if steering_power_last < steering_power_target then
    min (steering_power_last + P.STEERING_POWER_STEPS) steering_power_target
  else if steering_power_target < steering_power_last then
    max (steering_power_last - P.STEERING_POWER_STEPS) steering_power_target
  else steering_power_last

/-- Embedding of the MEB branch of `CarController.update` (steering
sub-step).  `smooth` stands for the stateful PT2 filter's output map for
this cycle and `angleLimit` for the external speed-aware
`apply_std_steer_angle_limits`; both are black-box collaborators. -/
def mebSteerStep (P : CarControllerParams) (smooth : ℚ → ℚ)
    (angleLimit : ℚ → ℚ → ℚ → ℚ) (inp : MebInputs)
    (apply_curvature_last steering_power_last : ℚ) : MebSteerOutputs :=
  if inp.latActive then
    let current_curvature := inp.csCurvature
    let actuator_curvature_with_offset :=
      inp.actuatorsCurvature + (inp.csCurvature - inp.ccCurrentCurvature)
    let apply_curvature := smooth actuator_curvature_with_offset
    let apply_curvature := angleLimit apply_curvature apply_curvature_last inp.vEgoRaw
    let apply_curvature :=
      if inp.steeringPressed then
        clip apply_curvature (current_curvature - P.CURVATURE_ERROR)
          (current_curvature + P.CURVATURE_ERROR)
      else apply_curvature
    let apply_curvature := clip apply_curvature (-P.CURVATURE_MAX) P.CURVATURE_MAX
    let steering_power_min_by_speed :=
      interp2 inp.vEgoRaw 0 P.STEERING_POWER_MAX_BY_SPEED
        P.STEERING_POWER_MIN P.STEERING_POWER_MAX
    let steering_curvature_diff := |apply_curvature - current_curvature|
    let steering_curvature_increase := max 0 (|apply_curvature| - |current_curvature|)
    let steering_curvature_change :=
      interp2 inp.vEgoRaw 0 3 steering_curvature_diff steering_curvature_increase
    let steering_power_target_curvature :=
      steering_power_min_by_speed +
        P.CURVATURE_POWER_FACTOR * (steering_curvature_change + |apply_curvature|)
    let steering_power_target :=
      clip steering_power_target_curvature P.STEERING_POWER_MIN P.STEERING_POWER_MAX
    let steering_power := powerRamp P inp.steeringPressed steering_power_target steering_power_last
    ⟨apply_curvature, steering_power, true,
      decide (steering_power = P.STEERING_POWER_MAX)⟩
  else
    if 0 < steering_power_last then
      ⟨clip inp.csCurvature (-P.CURVATURE_MAX) P.CURVATURE_MAX,
        max (steering_power_last - P.STEERING_POWER_STEPS) 0, true, false⟩
    else
      ⟨0, 0, false, false⟩

/-- Persistent state of the MQB torque steering sub-step. -/
structure MqbState where
  apply_torque_last : ℤ
  hca_frame_timer_running : ℚ
  hca_frame_same_torque : ℚ
  deriving Repr, DecidableEq

/-- Outputs of one MQB steering sub-step: applied torque, enable flag,
soft-disable advisory and the updated counters. -/
structure MqbOutputs where
  apply_torque : ℤ
  hca_enabled : Bool
  eps_timer_soft_disable_alert : Bool
  hca_frame_timer_running : ℚ
  hca_frame_same_torque : ℚ
  deriving Repr, DecidableEq

/-- The anti-stuck-torque nudge of the MQB path (`carcontroller.py`
lines 171-177): given the previous applied torque, the rate-limited
candidate and the same-torque frame counter, returns the (possibly
nudged) applied torque and the updated counter. -/
def mqbNudge (P : CarControllerParams) (last apply_torque : ℤ) (same_torque : ℚ) : ℤ × ℚ :=
  if last = apply_torque then
    let same := same_torque + P.STEER_STEP
    if P.STEER_TIME_STUCK_TORQUE / DT_CTRL < same then
      (apply_torque - (if apply_torque < 0 then -1 else 1), (0 : ℚ))
    else
      (apply_torque, same)
  else
    (apply_torque, (0 : ℚ))

/-- Embedding of the MQB (torque) branch of `CarController.update`
(steering sub-step).  `torqueLimit` stands for the external
driver-torque-aware `apply_driver_steer_torque_limits`. -/
def mqbSteerStep (P : CarControllerParams) (torqueLimit : ℤ → ℤ → ℚ → ℤ)
    (latActive : Bool) (actuatorsTorque steeringTorque : ℚ)
    (s : MqbState) : MqbOutputs :=
  if latActive then
    let new_torque : ℤ := round (actuatorsTorque * (P.STEER_MAX : ℚ))
    let apply_torque := torqueLimit new_torque s.apply_torque_last steeringTorque
    let timer := s.hca_frame_timer_running + P.STEER_STEP
    let nudged := mqbNudge P s.apply_torque_last apply_torque s.hca_frame_same_torque
    let apply_torque := nudged.1
    let hca_enabled := decide (0 < |apply_torque|)
    let timer := if hca_enabled then timer else 0
    ⟨apply_torque, hca_enabled, decide (P.STEER_TIME_ALERT / DT_CTRL < timer),
      timer, nudged.2⟩
  else
    ⟨0, false, decide (P.STEER_TIME_ALERT / DT_CTRL < 0), 0, s.hca_frame_same_torque⟩

/-- A concrete parameter valuation consistent with the design's sanity
bounds, used to exercise the theorems on explicit inputs. -/
def Pex : CarControllerParams :=
  { CURVATURE_MAX := 195/1000
    CURVATURE_ERROR := 2/1000
    CURVATURE_POWER_FACTOR := 50
    STEERING_POWER_MIN := 20
    STEERING_POWER_MAX := 100
    STEERING_POWER_STEPS := 5
    STEERING_POWER_USER_REDUCTION := 30
    STEERING_POWER_MAX_BY_SPEED := 83/10
    STEER_MAX := 300
    STEER_STEP := 2
    STEER_TIME_STUCK_TORQUE := 19/10
    STEER_TIME_ALERT := 359 }

/-- A second concrete parameter valuation, also within the design's
sanity bounds, exhibiting the driver-override power jump. -/
def PCex : CarControllerParams :=
  { CURVATURE_MAX := 1
    CURVATURE_ERROR := 0
    CURVATURE_POWER_FACTOR := 80
    STEERING_POWER_MIN := 20
    STEERING_POWER_MAX := 100
    STEERING_POWER_STEPS := 5
    STEERING_POWER_USER_REDUCTION := 30
    STEERING_POWER_MAX_BY_SPEED := 1
    STEER_MAX := 300
    STEER_STEP := 2
    STEER_TIME_STUCK_TORQUE := 19/10
    STEER_TIME_ALERT := 359 }

/-- Concrete MEB cycle inputs with lateral control active and the driver
not pressing the wheel. -/
def inpActive : MebInputs :=
  { latActive := true, steeringPressed := false, vEgoRaw := 10
    csCurvature := 1/100, ccCurrentCurvature := 1/100, actuatorsCurvature := 2/100 }

/-- Concrete MEB cycle inputs with lateral control active and the driver
pressing the wheel. -/
def inpPressed : MebInputs :=
  { latActive := true, steeringPressed := true, vEgoRaw := 0
    csCurvature := 1, ccCurrentCurvature := 0, actuatorsCurvature := 0 }

lemma le_clip (x lo hi : ℚ) : lo ≤ clip x lo hi := le_max_left _ _

lemma clip_le (x lo hi : ℚ) (h : lo ≤ hi) : clip x lo hi ≤ hi :=
  max_le h (min_le_right _ _)

lemma abs_clip_le (x m : ℚ) (hm : 0 ≤ m) : |clip x (-m) m| ≤ m := by
  rw [abs_le]
  exact ⟨le_clip _ _ _, clip_le _ _ _ (by linarith)⟩

/-- Claim C6: for every input history, `get_long_jerk_limits` with
`override = true` returns the fixed floor value `jerk_limit_min = 0.5`
as both jerk bounds and `0` as the returned jerk estimate. -/
theorem c6_jerk_limits_override (accel accel_last a_ego dt jerk_prev : ℚ) :
    get_long_jerk_limits accel accel_last a_ego dt jerk_prev true = (1/2, 1/2, 0) := rfl

/-- Claim C7: with `override = false` and `dt > 0`, `get_long_jerk_limits`
computes the raw estimate `0.9 * jerk_prev + 0.1 * (accel - accel_last)/dt
+ 0.6 * (accel - a_ego)`, clips `raw * 2` and `-raw * 3` to `[0.5, 5]` for
the up/down bounds, and returns the unclipped raw value as the estimate. -/
theorem c7_jerk_limits_formula (accel accel_last a_ego dt jerk_prev : ℚ)
    (hdt : 0 < dt) :
    get_long_jerk_limits accel accel_last a_ego dt jerk_prev false =
      (clip ((9/10 * jerk_prev + 1/10 * ((accel - accel_last) / dt)
          + 6/10 * (accel - a_ego)) * 2) (1/2) 5,
       clip (-(9/10 * jerk_prev + 1/10 * ((accel - accel_last) / dt)
          + 6/10 * (accel - a_ego)) * 3) (1/2) 5,
       9/10 * jerk_prev + 1/10 * ((accel - accel_last) / dt)
          + 6/10 * (accel - a_ego)) := by
  simp only [get_long_jerk_limits, clip, Bool.false_eq_true, if_false, Prod.mk.injEq]
  refine ⟨?_, ?_, ?_⟩
  · congr 1
    congr 1
    ring
  · congr 1
    congr 1
    ring
  · ring

/-- Witness for claim C7's theorem at a concrete input. -/
theorem c7_witness :
    (0 : ℚ) < 1/10 ∧
    get_long_jerk_limits 1 0 0 (1/10) 0 false =
      (clip ((9/10 * 0 + 1/10 * ((1 - 0) / (1/10)) + 6/10 * (1 - 0)) * 2) (1/2) 5,
       clip (-(9/10 * 0 + 1/10 * ((1 - 0) / (1/10)) + 6/10 * (1 - 0)) * 3) (1/2) 5,
       9/10 * 0 + 1/10 * ((1 - 0) / (1/10)) + 6/10 * (1 - 0)) :=
  ⟨by norm_num, c7_jerk_limits_formula 1 0 0 (1/10) 0 (by norm_num)⟩

/-- Claim C1: on the MEB platform, on every steering sub-step (active
path, power ramp-down path and fully disabled path alike) the applied
curvature satisfies `|apply_curvature| ≤ CURVATURE_MAX`. -/
theorem c1_curvature_always_clamped (P : CarControllerParams) (smooth : ℚ → ℚ)
    (angleLimit : ℚ → ℚ → ℚ → ℚ) (inp : MebInputs) (cl pl : ℚ)
    (hmax : 0 ≤ P.CURVATURE_MAX) :
    |(mebSteerStep P smooth angleLimit inp cl pl).apply_curvature| ≤ P.CURVATURE_MAX := by
  unfold mebSteerStep
  by_cases hA : inp.latActive = true
  · simp only [hA, if_true]
    exact abs_clip_le _ _ hmax
  · simp only [hA, if_false, Bool.false_eq_true]
    by_cases hp : 0 < pl
    · simp only [hp, if_true]
      exact abs_clip_le _ _ hmax
    · simp only [hp, if_false]
      simpa using hmax

/-- Witness for claim C1's theorem at a concrete input. -/
theorem c1_witness :
    (0 : ℚ) ≤ Pex.CURVATURE_MAX ∧
    |(mebSteerStep Pex (fun c => c) (fun c _ _ => c) inpActive 0 0).apply_curvature| ≤
      Pex.CURVATURE_MAX :=
  ⟨by norm_num [Pex],
   c1_curvature_always_clamped Pex (fun c => c) (fun c _ _ => c) inpActive 0 0
     (by norm_num [Pex])⟩

/-- Claim C9: on the MEB active path, whenever the previous power level is
below `STEERING_POWER_MIN`, the new power level is
`min (previous + STEERING_POWER_STEPS) STEERING_POWER_MIN`, whatever the
computed power target is. -/
theorem c9_activation_ramp_to_min (P : CarControllerParams) (smooth : ℚ → ℚ)
    (angleLimit : ℚ → ℚ → ℚ → ℚ) (inp : MebInputs) (cl pl : ℚ)
    (hA : inp.latActive = true) (hpl : pl < P.STEERING_POWER_MIN) :
    (mebSteerStep P smooth angleLimit inp cl pl).steering_power =
      min (pl + P.STEERING_POWER_STEPS) P.STEERING_POWER_MIN := by
  simp only [mebSteerStep, hA, if_true, powerRamp, hpl]

/-- Witness for claim C9's theorem at a concrete input. -/
theorem c9_witness :
    inpActive.latActive = true ∧ (0 : ℚ) < Pex.STEERING_POWER_MIN ∧
    (mebSteerStep Pex (fun c => c) (fun c _ _ => c) inpActive 0 0).steering_power =
      min (0 + Pex.STEERING_POWER_STEPS) Pex.STEERING_POWER_MIN :=
  ⟨rfl, by norm_num [Pex],
   c9_activation_ramp_to_min Pex (fun c => c) (fun c _ _ => c) inpActive 0 0 rfl
     (by norm_num [Pex])⟩

/-- Claim C3: for every raw status and cycle, `update_hca_state` asserts
the permanent-fault flag exactly when (drive mode and status disabled) or
(initialization latch set and status fault), and the temporary-fault flag
exactly when (drive mode and status rejected or preempted) or the
initialization latch is not yet set. -/
theorem c3_hca_fault_classification (frame : ℕ) (init : Bool)
    (st : HcaStatus) (dm : Bool) :
    ((update_hca_state frame init st dm).perm_fault = true ↔
      ((dm = true ∧ st = .disabled) ∨
        ((update_hca_state frame init st dm).eps_init_complete = true ∧ st = .fault))) ∧
    ((update_hca_state frame init st dm).temp_fault = true ↔
      ((dm = true ∧ (st = .rejected ∨ st = .preempted)) ∨
        (update_hca_state frame init st dm).eps_init_complete = false)) := by
  by_cases hf : 600 < frame <;>
    cases st <;> cases dm <;> cases init <;>
      simp [update_hca_state, hf]

lemma update_fst_T (s : SmootherstepTransition) (dt : ℚ) :
    ((s.update dt).1).T = s.T := by
  simp only [SmootherstepTransition.update]
  split <;> rfl

lemma update_fst_start (s : SmootherstepTransition) (dt : ℚ) :
    ((s.update dt).1).start_value = s.start_value := by
  simp only [SmootherstepTransition.update]
  split <;> rfl

lemma update_fst_target (s : SmootherstepTransition) (dt : ℚ) :
    ((s.update dt).1).target_value = s.target_value := by
  simp only [SmootherstepTransition.update]
  split <;> rfl

lemma update_fst_elapsed (s : SmootherstepTransition) (dt : ℚ) :
    ((s.update dt).1).elapsed = s.elapsed + dt := by
  simp only [SmootherstepTransition.update]
  split <;> rfl

lemma update_snd (s : SmootherstepTransition) (dt : ℚ) :
    (s.update dt).2 =
      if s.elapsed + dt < s.T then
        s.start_value + smootherstep ((s.elapsed + dt) / s.T) *
          (s.target_value - s.start_value)
      else s.target_value := by
  simp only [SmootherstepTransition.update]
  split <;> rfl

lemma runUpdates_T (dts : List ℚ) (s : SmootherstepTransition) :
    (runUpdates s dts).T = s.T := by
  induction dts generalizing s with
  | nil => rfl
  | cons d ds ih =>
      show (runUpdates ((s.update d).1) ds).T = s.T
      rw [ih, update_fst_T]

lemma runUpdates_start (dts : List ℚ) (s : SmootherstepTransition) :
    (runUpdates s dts).start_value = s.start_value := by
  induction dts generalizing s with
  | nil => rfl
  | cons d ds ih =>
      show (runUpdates ((s.update d).1) ds).start_value = s.start_value
      rw [ih, update_fst_start]

lemma runUpdates_target (dts : List ℚ) (s : SmootherstepTransition) :
    (runUpdates s dts).target_value = s.target_value := by
  induction dts generalizing s with
  | nil => rfl
  | cons d ds ih =>
      show (runUpdates ((s.update d).1) ds).target_value = s.target_value
      rw [ih, update_fst_target]

lemma runUpdates_elapsed (dts : List ℚ) (s : SmootherstepTransition) :
    (runUpdates s dts).elapsed = s.elapsed + dts.sum := by
  induction dts generalizing s with
  | nil => simp [runUpdates]
  | cons d ds ih =>
      show (runUpdates ((s.update d).1) ds).elapsed = s.elapsed + (d :: ds).sum
      rw [ih, update_fst_elapsed, List.sum_cons]
      ring

/-- Claim C10: after `set_target v` followed by any sequence of
nonnegative `update` calls, each `update` returns
`start + smootherstep(elapsed/T) * (v - start)` while the accumulated
elapsed time is strictly below `T` (with `start` the current value at
`set_target` time), and returns exactly `v` once it reaches `T`. -/
theorem c10_smootherstep_transition (s : SmootherstepTransition) (v : ℚ)
    (dts : List ℚ) (dt : ℚ) (hdts : ∀ x ∈ dts, (0 : ℚ) ≤ x) (hdt : 0 ≤ dt) :
    ((runUpdates (s.set_target v) dts).update dt).2 =
      if dts.sum + dt < s.T then
        s.current_value + smootherstep ((dts.sum + dt) / s.T) * (v - s.current_value)
      else v := by
  rw [update_snd, runUpdates_T, runUpdates_start, runUpdates_target, runUpdates_elapsed]
  simp only [SmootherstepTransition.set_target, zero_add]

/-- Witness for claim C10's theorem at a concrete input. -/
theorem c10_witness :
    (∀ x ∈ ([1/10] : List ℚ), (0 : ℚ) ≤ x) ∧ (0 : ℚ) ≤ 1/10 ∧
    ((runUpdates ((⟨1/4, 0, 0, 0, 0⟩ : SmootherstepTransition).set_target 1)
        [1/10]).update (1/10)).2 =
      if ([1/10] : List ℚ).sum + 1/10 < (⟨1/4, 0, 0, 0, 0⟩ : SmootherstepTransition).T then
        (⟨1/4, 0, 0, 0, 0⟩ : SmootherstepTransition).current_value +
          smootherstep ((([1/10] : List ℚ).sum + 1/10) /
              (⟨1/4, 0, 0, 0, 0⟩ : SmootherstepTransition).T) *
            (1 - (⟨1/4, 0, 0, 0, 0⟩ : SmootherstepTransition).current_value)
      else 1 :=
  ⟨by norm_num, by norm_num,
   c10_smootherstep_transition ⟨1/4, 0, 0, 0, 0⟩ 1 [1/10] (1/10)
     (by norm_num) (by norm_num)⟩

/-- Claim C5: on the MQB platform, after each steering sub-step the
running authority timer is 0 whenever authority (nonzero applied torque)
is disabled, grew by `STEER_STEP` whenever authority is enabled, and the
soft-disable advisory is set exactly when the timer strictly exceeds
`STEER_TIME_ALERT / DT_CTRL`. -/
theorem c5_authority_timer_and_alert (P : CarControllerParams)
    (torqueLimit : ℤ → ℤ → ℚ → ℤ) (latActive : Bool) (tq dtq : ℚ) (s : MqbState) :
    ((mqbSteerStep P torqueLimit latActive tq dtq s).hca_enabled = false →
      (mqbSteerStep P torqueLimit latActive tq dtq s).hca_frame_timer_running = 0) ∧
    ((mqbSteerStep P torqueLimit latActive tq dtq s).hca_enabled = true →
      (mqbSteerStep P torqueLimit latActive tq dtq s).hca_frame_timer_running =
        s.hca_frame_timer_running + P.STEER_STEP) ∧
    ((mqbSteerStep P torqueLimit latActive tq dtq s).eps_timer_soft_disable_alert = true ↔
      P.STEER_TIME_ALERT / DT_CTRL <
        (mqbSteerStep P torqueLimit latActive tq dtq s).hca_frame_timer_running) := by
  cases latActive
  · simp [mqbSteerStep]
  · simp only [mqbSteerStep, if_true]
    generalize mqbNudge P s.apply_torque_last
      (torqueLimit (round (tq * (P.STEER_MAX : ℚ))) s.apply_torque_last dtq)
      s.hca_frame_same_torque = a
    by_cases hE : (0 : ℤ) < |a.1|
    · simp [hE]
    · simp [hE]

/-- Witness for claim C5's theorem at a concrete input. -/
theorem c5_witness :
    ((mqbSteerStep Pex (fun _ _ _ => 5) true 0 0 ⟨5, 10, 0⟩).hca_enabled = false →
      (mqbSteerStep Pex (fun _ _ _ => 5) true 0 0 ⟨5, 10, 0⟩).hca_frame_timer_running = 0) ∧
    ((mqbSteerStep Pex (fun _ _ _ => 5) true 0 0 ⟨5, 10, 0⟩).hca_enabled = true →
      (mqbSteerStep Pex (fun _ _ _ => 5) true 0 0 ⟨5, 10, 0⟩).hca_frame_timer_running =
        (⟨5, 10, 0⟩ : MqbState).hca_frame_timer_running + Pex.STEER_STEP) ∧
    ((mqbSteerStep Pex (fun _ _ _ => 5) true 0 0 ⟨5, 10, 0⟩).eps_timer_soft_disable_alert = true ↔
      Pex.STEER_TIME_ALERT / DT_CTRL <
        (mqbSteerStep Pex (fun _ _ _ => 5) true 0 0 ⟨5, 10, 0⟩).hca_frame_timer_running) :=
  c5_authority_timer_and_alert Pex (fun _ _ _ => 5) true 0 0 ⟨5, 10, 0⟩

/-- Counterexample to claim C4 as stated: with the candidate applied
torque constant at 0 (a legal zero desired torque) and the same-torque
run-length crossing the stuck-torque threshold, the applied torque
becomes -1, so its magnitude increases by one unit instead of
decreasing by one. -/
theorem c4_counterexample :
    (mqbSteerStep Pex (fun _ _ _ => 0) true 0 0 ⟨0, 0, 189⟩).apply_torque = -1 ∧
    ¬ (|(mqbSteerStep Pex (fun _ _ _ => 0) true 0 0 ⟨0, 0, 189⟩).apply_torque| =
        |((⟨0, 0, 189⟩ : MqbState).apply_torque_last)| - 1) := by
  have h : (mqbSteerStep Pex (fun _ _ _ => 0) true 0 0 ⟨0, 0, 189⟩).apply_torque = -1 := by
    simp only [mqbSteerStep, if_true]
    norm_num [mqbNudge, Pex, DT_CTRL]
  refine ⟨h, ?_⟩
  rw [h]
  norm_num

/-- Claim C4 (amended): if additionally the held applied torque is
nonzero, then at the threshold crossing the applied torque's magnitude
decreases by exactly one hardware unit and the same-torque counter
resets to 0. -/
theorem c4_stuck_torque_nudge (P : CarControllerParams)
    (torqueLimit : ℤ → ℤ → ℚ → ℤ) (tq dtq : ℚ) (s : MqbState)
    (hc : torqueLimit (round (tq * (P.STEER_MAX : ℚ))) s.apply_torque_last dtq =
      s.apply_torque_last)
    (hth : P.STEER_TIME_STUCK_TORQUE / DT_CTRL < s.hca_frame_same_torque + P.STEER_STEP)
    (hnz : s.apply_torque_last ≠ 0) :
    |(mqbSteerStep P torqueLimit true tq dtq s).apply_torque| =
      |s.apply_torque_last| - 1 ∧
    (mqbSteerStep P torqueLimit true tq dtq s).hca_frame_same_torque = 0 := by
  have hn : mqbNudge P s.apply_torque_last
      (torqueLimit (round (tq * (P.STEER_MAX : ℚ))) s.apply_torque_last dtq)
      s.hca_frame_same_torque =
      (s.apply_torque_last - (if s.apply_torque_last < 0 then -1 else 1), (0 : ℚ)) := by
    rw [hc]
    unfold mqbNudge
    rw [if_pos rfl, if_pos hth]
  simp only [mqbSteerStep, if_true, hn]
  refine ⟨?_, trivial⟩
  rcases lt_trichotomy s.apply_torque_last 0 with h | h | h
  · rw [if_pos h]
    rw [show s.apply_torque_last - (-1) = s.apply_torque_last + 1 by ring]
    rw [abs_of_nonpos (by omega), abs_of_neg h]
    ring
  · exact absurd h hnz
  · rw [if_neg (by omega)]
    rw [abs_of_nonneg (by omega), abs_of_pos h]

/-- Witness for claim C4's amended theorem at a concrete input. -/
theorem c4_witness :
    (fun (_ : ℤ) (_ : ℤ) (_ : ℚ) => (7 : ℤ)) (round ((0 : ℚ) * (Pex.STEER_MAX : ℚ)))
        (⟨7, 0, 189⟩ : MqbState).apply_torque_last 0 =
      (⟨7, 0, 189⟩ : MqbState).apply_torque_last ∧
    Pex.STEER_TIME_STUCK_TORQUE / DT_CTRL <
      (⟨7, 0, 189⟩ : MqbState).hca_frame_same_torque + Pex.STEER_STEP ∧
    (⟨7, 0, 189⟩ : MqbState).apply_torque_last ≠ 0 ∧
    (|(mqbSteerStep Pex (fun _ _ _ => 7) true 0 0 ⟨7, 0, 189⟩).apply_torque| =
        |(⟨7, 0, 189⟩ : MqbState).apply_torque_last| - 1 ∧
      (mqbSteerStep Pex (fun _ _ _ => 7) true 0 0 ⟨7, 0, 189⟩).hca_frame_same_torque = 0) :=
  ⟨rfl, by norm_num [Pex, DT_CTRL], by norm_num,
   c4_stuck_torque_nudge Pex (fun _ _ _ => 7) 0 0 ⟨7, 0, 189⟩ rfl
     (by norm_num [Pex, DT_CTRL]) (by norm_num)⟩

lemma powerRamp_prop (P : CarControllerParams) (pressed : Bool) (t pl : ℚ)
    (hm0 : 0 ≤ P.STEERING_POWER_MIN)
    (hmm : P.STEERING_POWER_MIN ≤ P.STEERING_POWER_MAX)
    (hs : 0 ≤ P.STEERING_POWER_STEPS)
    (hr0 : 0 ≤ P.STEERING_POWER_USER_REDUCTION)
    (hr1 : P.STEERING_POWER_USER_REDUCTION ≤ 100)
    (hpl0 : 0 ≤ pl) (hplM : pl ≤ P.STEERING_POWER_MAX)
    (ht0 : P.STEERING_POWER_MIN ≤ t) (ht1 : t ≤ P.STEERING_POWER_MAX) :
    (0 ≤ powerRamp P pressed t pl ∧ powerRamp P pressed t pl ≤ P.STEERING_POWER_MAX) ∧
    pl - P.STEERING_POWER_STEPS ≤ powerRamp P pressed t pl ∧
    (pressed = false → powerRamp P pressed t pl ≤ pl + P.STEERING_POWER_STEPS) ∧
    powerRamp P pressed t pl ≤
      max (pl + P.STEERING_POWER_STEPS)
        (max (P.STEERING_POWER_MAX * (100 - P.STEERING_POWER_USER_REDUCTION) / 100)
          P.STEERING_POWER_MIN) := by
  have hM0 : (0 : ℚ) ≤ P.STEERING_POWER_MAX := le_trans hm0 hmm
  have hu : (0 : ℚ) ≤ 100 - P.STEERING_POWER_USER_REDUCTION := by linarith
  have hB : t / 100 * (100 - P.STEERING_POWER_USER_REDUCTION) ≤
      P.STEERING_POWER_MAX * (100 - P.STEERING_POWER_USER_REDUCTION) / 100 := by
    rw [div_mul_eq_mul_div]
    exact (div_le_div_right (by norm_num)).mpr (mul_le_mul_of_nonneg_right ht1 hu)
  have hA2 : P.STEERING_POWER_MAX * (100 - P.STEERING_POWER_USER_REDUCTION) / 100 ≤
      P.STEERING_POWER_MAX := by
    rw [div_le_iff (by norm_num : (0:ℚ) < 100)]
    nlinarith [mul_le_mul_of_nonneg_left
      (show 100 - P.STEERING_POWER_USER_REDUCTION ≤ 100 by linarith) hM0]
  simp only [powerRamp]
  split_ifs with h1 h2 h3 h4
  · exact ⟨⟨le_min (by linarith) hm0, le_trans (min_le_right _ _) hmm⟩,
      le_min (by linarith) (by linarith),
      fun _ => min_le_left _ _,
      le_trans (min_le_left _ _) (le_max_left _ _)⟩
  · refine ⟨⟨le_trans hm0 (le_trans (le_max_right _ _) (le_max_right _ _)), ?_⟩, le_max_left _ _, ?_, ?_⟩
    · exact max_le (by linarith) (max_le (le_trans hB hA2) hmm)
    · intro hp
      rw [hp] at h2
      exact absurd h2 (by simp)
    · exact max_le (le_trans (by linarith) (le_max_left _ _))
        (le_trans (max_le_max hB (le_refl _)) (le_max_right _ _))
  · exact ⟨⟨le_min (by linarith) (by linarith), le_trans (min_le_right _ _) ht1⟩,
      le_min (by linarith) (by linarith),
      fun _ => min_le_left _ _,
      le_trans (min_le_left _ _) (le_max_left _ _)⟩
  · exact ⟨⟨le_trans (by linarith) (le_max_right _ _), max_le (by linarith) ht1⟩,
      le_max_left _ _,
      fun _ => max_le (by linarith) (by linarith),
      max_le (le_trans (by linarith) (le_max_left _ _))
        (le_trans (by linarith) (le_max_left _ _))⟩
  · exact ⟨⟨hpl0, hplM⟩, by linarith, fun _ => by linarith,
      le_trans (by linarith) (le_max_left _ _)⟩

lemma powerRamp_clip_prop (P : CarControllerParams) (pressed : Bool) (pl x : ℚ)
    (hm0 : 0 ≤ P.STEERING_POWER_MIN)
    (hmm : P.STEERING_POWER_MIN ≤ P.STEERING_POWER_MAX)
    (hs : 0 ≤ P.STEERING_POWER_STEPS)
    (hr0 : 0 ≤ P.STEERING_POWER_USER_REDUCTION)
    (hr1 : P.STEERING_POWER_USER_REDUCTION ≤ 100)
    (hpl0 : 0 ≤ pl) (hplM : pl ≤ P.STEERING_POWER_MAX) :
    (0 ≤ powerRamp P pressed (clip x P.STEERING_POWER_MIN P.STEERING_POWER_MAX) pl ∧
      powerRamp P pressed (clip x P.STEERING_POWER_MIN P.STEERING_POWER_MAX) pl ≤
        P.STEERING_POWER_MAX) ∧
    pl - P.STEERING_POWER_STEPS ≤
      powerRamp P pressed (clip x P.STEERING_POWER_MIN P.STEERING_POWER_MAX) pl ∧
    (pressed = false →
      powerRamp P pressed (clip x P.STEERING_POWER_MIN P.STEERING_POWER_MAX) pl ≤
        pl + P.STEERING_POWER_STEPS) ∧
    powerRamp P pressed (clip x P.STEERING_POWER_MIN P.STEERING_POWER_MAX) pl ≤
      max (pl + P.STEERING_POWER_STEPS)
        (max (P.STEERING_POWER_MAX * (100 - P.STEERING_POWER_USER_REDUCTION) / 100)
          P.STEERING_POWER_MIN) :=
  powerRamp_prop P pressed _ pl hm0 hmm hs hr0 hr1 hpl0 hplM
    (le_clip _ _ _) (clip_le _ _ _ hmm)

/-- Counterexample to claim C2 as stated: with a parameter valuation
satisfying the design's sanity bounds and the driver pressing the wheel
while the previous power sits at `STEERING_POWER_MIN = 20`, the new power
jumps to the user-reduced target 70, a change of 50 in one sub-step,
far exceeding `STEERING_POWER_STEPS = 5`. -/
theorem c2_counterexample :
    (mebSteerStep PCex (fun c => c) (fun c _ _ => c) inpPressed 1 20).steering_power = 70 ∧
    ¬ (|(mebSteerStep PCex (fun c => c) (fun c _ _ => c) inpPressed 1 20).steering_power - 20| ≤
        PCex.STEERING_POWER_STEPS) := by
  have h : (mebSteerStep PCex (fun c => c) (fun c _ _ => c) inpPressed 1 20).steering_power = 70 := by
    norm_num [mebSteerStep, inpPressed, PCex, powerRamp, clip, interp2]
  refine ⟨h, ?_⟩
  rw [h]
  norm_num [PCex]

/-- Claim C2 (amended): on the MEB platform, under the design's sanity
bounds on the parameters and a previous power level in
`[0, STEERING_POWER_MAX]`, the new power level stays in
`[0, STEERING_POWER_MAX]`, never decreases by more than one ramp step,
and increases by at most one ramp step in every branch except the
driver-override branch, where it may instead jump up to the user-reduced
target power, itself bounded by
`max (STEERING_POWER_MAX * (100 - STEERING_POWER_USER_REDUCTION) / 100)
STEERING_POWER_MIN`. -/
theorem c2_power_bounds (P : CarControllerParams) (smooth : ℚ → ℚ)
    (angleLimit : ℚ → ℚ → ℚ → ℚ) (inp : MebInputs) (cl pl : ℚ)
    (hm0 : 0 ≤ P.STEERING_POWER_MIN)
    (hmm : P.STEERING_POWER_MIN ≤ P.STEERING_POWER_MAX)
    (hs : 0 ≤ P.STEERING_POWER_STEPS)
    (hr0 : 0 ≤ P.STEERING_POWER_USER_REDUCTION)
    (hr1 : P.STEERING_POWER_USER_REDUCTION ≤ 100)
    (hpl0 : 0 ≤ pl) (hplM : pl ≤ P.STEERING_POWER_MAX) :
    (0 ≤ (mebSteerStep P smooth angleLimit inp cl pl).steering_power ∧
      (mebSteerStep P smooth angleLimit inp cl pl).steering_power ≤ P.STEERING_POWER_MAX) ∧
    pl - P.STEERING_POWER_STEPS ≤ (mebSteerStep P smooth angleLimit inp cl pl).steering_power ∧
    ((inp.latActive = true → inp.steeringPressed = false) →
      (mebSteerStep P smooth angleLimit inp cl pl).steering_power ≤
        pl + P.STEERING_POWER_STEPS) ∧
    (mebSteerStep P smooth angleLimit inp cl pl).steering_power ≤
      max (pl + P.STEERING_POWER_STEPS)
        (max (P.STEERING_POWER_MAX * (100 - P.STEERING_POWER_USER_REDUCTION) / 100)
          P.STEERING_POWER_MIN) := by
  have hM0 : (0 : ℚ) ≤ P.STEERING_POWER_MAX := le_trans hm0 hmm
  by_cases hA : inp.latActive = true
  · simp only [mebSteerStep, hA, if_true]
    refine ⟨(powerRamp_clip_prop P inp.steeringPressed pl _ hm0 hmm hs hr0 hr1 hpl0 hplM).1,
      (powerRamp_clip_prop P inp.steeringPressed pl _ hm0 hmm hs hr0 hr1 hpl0 hplM).2.1,
      ?_,
      (powerRamp_clip_prop P inp.steeringPressed pl _ hm0 hmm hs hr0 hr1 hpl0 hplM).2.2.2⟩
    intro hp
    exact (powerRamp_clip_prop P inp.steeringPressed pl _ hm0 hmm hs hr0 hr1 hpl0 hplM).2.2.1
      (hp trivial)
  · rw [Bool.not_eq_true] at hA
    simp only [mebSteerStep, hA, Bool.false_eq_true, if_false]
    by_cases hp : 0 < pl
    · simp only [hp, if_true]
      refine ⟨⟨le_max_right _ _, max_le (by linarith) hM0⟩, le_max_left _ _, ?_, ?_⟩
      · exact fun _ => max_le (by linarith) (by linarith)
      · exact le_trans (max_le (by linarith) (by linarith)) (le_max_left _ _)
    · simp only [hp, if_false]
      exact ⟨⟨le_refl 0, hM0⟩, by linarith, fun _ => by linarith,
        le_trans (by linarith) (le_max_left _ _)⟩

/-- Witness for claim C2's amended theorem at a concrete input. -/
theorem c2_witness :
    (0 : ℚ) ≤ Pex.STEERING_POWER_MIN ∧
    Pex.STEERING_POWER_MIN ≤ Pex.STEERING_POWER_MAX ∧
    (0 : ℚ) ≤ Pex.STEERING_POWER_STEPS ∧
    (0 : ℚ) ≤ Pex.STEERING_POWER_USER_REDUCTION ∧
    Pex.STEERING_POWER_USER_REDUCTION ≤ 100 ∧
    (0 : ℚ) ≤ 50 ∧ (50 : ℚ) ≤ Pex.STEERING_POWER_MAX ∧
    ((0 ≤ (mebSteerStep Pex (fun c => c) (fun c _ _ => c) inpActive 0 50).steering_power ∧
      (mebSteerStep Pex (fun c => c) (fun c _ _ => c) inpActive 0 50).steering_power ≤
        Pex.STEERING_POWER_MAX) ∧
    (50 : ℚ) - Pex.STEERING_POWER_STEPS ≤
      (mebSteerStep Pex (fun c => c) (fun c _ _ => c) inpActive 0 50).steering_power ∧
    ((inpActive.latActive = true → inpActive.steeringPressed = false) →
      (mebSteerStep Pex (fun c => c) (fun c _ _ => c) inpActive 0 50).steering_power ≤
        50 + Pex.STEERING_POWER_STEPS) ∧
    (mebSteerStep Pex (fun c => c) (fun c _ _ => c) inpActive 0 50).steering_power ≤
      max ((50 : ℚ) + Pex.STEERING_POWER_STEPS)
        (max (Pex.STEERING_POWER_MAX * (100 - Pex.STEERING_POWER_USER_REDUCTION) / 100)
          Pex.STEERING_POWER_MIN)) :=
  ⟨by norm_num [Pex], by norm_num [Pex], by norm_num [Pex], by norm_num [Pex],
   by norm_num [Pex], by norm_num, by norm_num [Pex],
   c2_power_bounds Pex (fun c => c) (fun c _ _ => c) inpActive 0 50
     (by norm_num [Pex]) (by norm_num [Pex]) (by norm_num [Pex]) (by norm_num [Pex])
     (by norm_num [Pex]) (by norm_num) (by norm_num [Pex])⟩

lemma interp2_aux_nonneg (x x0 x1 y0 y1 : ℚ) (hd : x0 < x1) (hy : y0 ≤ y1)
    (hx : x0 ≤ x) : 0 ≤ (x - x0) * (y1 - y0) / (x1 - x0) :=
  div_nonneg (mul_nonneg (by linarith) (by linarith)) (by linarith)

lemma interp2_aux_le (x x0 x1 y0 y1 : ℚ) (hd : x0 < x1) (hy : y0 ≤ y1)
    (hx : x ≤ x1) : (x - x0) * (y1 - y0) / (x1 - x0) ≤ y1 - y0 := by
  rw [div_le_iff (by linarith : (0:ℚ) < x1 - x0)]
  nlinarith [mul_le_mul_of_nonneg_right (show x - x0 ≤ x1 - x0 by linarith)
    (show (0:ℚ) ≤ y1 - y0 by linarith)]

lemma interp2_mem (x x0 x1 y0 y1 : ℚ) (hd : x0 < x1) (hy : y0 ≤ y1) :
    y0 ≤ interp2 x x0 x1 y0 y1 ∧ interp2 x x0 x1 y0 y1 ≤ y1 := by
  unfold interp2
  split_ifs with h1 h2
  · exact ⟨le_refl _, hy⟩
  · exact ⟨hy, le_refl _⟩
  · push_neg at h1 h2
    have ha := interp2_aux_nonneg x x0 x1 y0 y1 hd hy (by linarith)
    have hb := interp2_aux_le x x0 x1 y0 y1 hd hy (by linarith)
    exact ⟨by linarith, by linarith⟩

lemma interp2_mem_anti (x x0 x1 y0 y1 : ℚ) (hd : x0 < x1) (hy : y1 ≤ y0) :
    y1 ≤ interp2 x x0 x1 y0 y1 ∧ interp2 x x0 x1 y0 y1 ≤ y0 := by
  have hd' : (0:ℚ) < x1 - x0 := by linarith
  unfold interp2
  split_ifs with h1 h2
  · exact ⟨hy, le_refl _⟩
  · exact ⟨le_refl _, hy⟩
  · push_neg at h1 h2
    have ha : y1 - y0 ≤ (x - x0) * (y1 - y0) / (x1 - x0) := by
      rw [le_div_iff hd']
      nlinarith [mul_le_mul_of_nonneg_right (show x - x0 ≤ x1 - x0 by linarith)
        (show (0:ℚ) ≤ y0 - y1 by linarith)]
    have hb : (x - x0) * (y1 - y0) / (x1 - x0) ≤ 0 := by
      rw [div_le_iff hd']
      nlinarith [mul_nonneg (show (0:ℚ) ≤ x - x0 by linarith)
        (show (0:ℚ) ≤ y0 - y1 by linarith)]
    exact ⟨by linarith, by linarith⟩

lemma interp2_mono (a b x0 x1 y0 y1 : ℚ) (hd : x0 < x1) (hy : y0 ≤ y1)
    (hab : a ≤ b) : interp2 a x0 x1 y0 y1 ≤ interp2 b x0 x1 y0 y1 := by
  have hd' : (0:ℚ) < x1 - x0 := by linarith
  unfold interp2
  split_ifs with h1 h2 h3 h4 h5 h6 h7 h8
  · exact le_refl _
  · exact hy
  · have := interp2_aux_nonneg b x0 x1 y0 y1 hd hy (by linarith)
    linarith
  · linarith
  · exact le_refl _
  · linarith
  · linarith
  · have := interp2_aux_le a x0 x1 y0 y1 hd hy (by linarith)
    linarith
  · have hm : (a - x0) * (y1 - y0) ≤ (b - x0) * (y1 - y0) :=
      mul_le_mul_of_nonneg_right (by linarith) (by linarith)
    have := (div_le_div_right hd').mpr hm
    linarith

lemma interp3_mono (a b x0 x1 x2 y0 y1 y2 : ℚ) (h01 : x0 < x1) (h12 : x1 < x2)
    (hy01 : y0 ≤ y1) (hy12 : y1 ≤ y2) (hab : a ≤ b) :
    interp3 a x0 x1 x2 y0 y1 y2 ≤ interp3 b x0 x1 x2 y0 y1 y2 := by
  unfold interp3
  split_ifs with ha hb hb
  · exact interp2_mono a b x0 x1 y0 y1 h01 hy01 hab
  · exact le_trans (interp2_mem a x0 x1 y0 y1 h01 hy01).2
      (interp2_mem b x1 x2 y1 y2 h12 hy12).1
  · linarith
  · exact interp2_mono a b x1 x2 y1 y2 h12 hy12 hab

lemma interp3_mem (x x0 x1 x2 y0 y1 y2 : ℚ) (h01 : x0 < x1) (h12 : x1 < x2)
    (hy01 : y0 ≤ y1) (hy12 : y1 ≤ y2) :
    y0 ≤ interp3 x x0 x1 x2 y0 y1 y2 ∧ interp3 x x0 x1 x2 y0 y1 y2 ≤ y2 := by
  unfold interp3
  split_ifs with h
  · exact ⟨(interp2_mem x x0 x1 y0 y1 h01 hy01).1,
      le_trans (interp2_mem x x0 x1 y0 y1 h01 hy01).2 hy12⟩
  · exact ⟨le_trans hy01 (interp2_mem x x1 x2 y1 y2 h12 hy12).1,
      (interp2_mem x x1 x2 y1 y2 h12 hy12).2⟩

/-- Claim C8: for lead distance in `[0, 1000]` and speed and set speed in
`[0, 60]`, both outputs of `get_long_control_limits` are monotonically
non-decreasing in the lead distance, and both lie within the configured
bounds (`[0, 0.125]` for the upper limit, `[0, 0.288]` for the lower). -/
theorem c8_control_limits_monotone_bounded (speed set_speed d1 d2 : ℚ)
    (hd1 : 0 ≤ d1) (hd12 : d1 ≤ d2) (hd2 : d2 ≤ 1000)
    (hsp0 : 0 ≤ speed) (hsp1 : speed ≤ 60)
    (hss0 : 0 ≤ set_speed) (hss1 : set_speed ≤ 60) :
    (get_long_control_limits speed set_speed d1).1 ≤
      (get_long_control_limits speed set_speed d2).1 ∧
    (get_long_control_limits speed set_speed d1).2 ≤
      (get_long_control_limits speed set_speed d2).2 ∧
    (0 ≤ (get_long_control_limits speed set_speed d1).1 ∧
      (get_long_control_limits speed set_speed d1).1 ≤ 1/8) ∧
    (0 ≤ (get_long_control_limits speed set_speed d1).2 ∧
      (get_long_control_limits speed set_speed d1).2 ≤ 36/125) := by
  simp only [get_long_control_limits]
  have hf0 : 0 ≤ interp2 (max 0 (|speed| - |set_speed|)) 1 (7/4) 1 0 :=
    (interp2_mem_anti _ 1 (7/4) 1 0 (by norm_num) (by norm_num)).1
  have hf1 : interp2 (max 0 (|speed| - |set_speed|)) 1 (7/4) 1 0 ≤ 1 :=
    (interp2_mem_anti _ 1 (7/4) 1 0 (by norm_num) (by norm_num)).2
  have hl1 := interp3_mem d1 0 6 100 0 (48/1000) (48/1000*6)
    (by norm_num) (by norm_num) (by norm_num) (by norm_num)
  have hu1 := interp2_mem d1 0 100 0 (625/10000*2) (by norm_num) (by norm_num)
  refine ⟨?_, ?_, ⟨hu1.1, le_trans hu1.2 (by norm_num)⟩, ?_⟩
  · exact interp2_mono d1 d2 0 100 0 (625/10000*2) (by norm_num) (by norm_num) hd12
  · exact mul_le_mul_of_nonneg_right
      (interp3_mono d1 d2 0 6 100 0 (48/1000) (48/1000*6)
        (by norm_num) (by norm_num) (by norm_num) (by norm_num) hd12) hf0
  · constructor
    · exact mul_nonneg hl1.1 hf0
    · have hm : interp3 d1 0 6 100 0 (48/1000) (48/1000*6) *
          interp2 (max 0 (|speed| - |set_speed|)) 1 (7/4) 1 0 ≤
          interp3 d1 0 6 100 0 (48/1000) (48/1000*6) * 1 :=
        mul_le_mul_of_nonneg_left hf1 hl1.1
      have hm2 := hl1.2
      rw [mul_one] at hm
      calc interp3 d1 0 6 100 0 (48/1000) (48/1000*6) *
            interp2 (max 0 (|speed| - |set_speed|)) 1 (7/4) 1 0 ≤
          interp3 d1 0 6 100 0 (48/1000) (48/1000*6) := hm
        _ ≤ 36/125 := le_trans hm2 (by norm_num)

/-- Witness for claim C8's theorem at a concrete input. -/
theorem c8_witness :
    (0 : ℚ) ≤ 0 ∧ (0 : ℚ) ≤ 100 ∧ (100 : ℚ) ≤ 1000 ∧
    (0 : ℚ) ≤ 0 ∧ (0 : ℚ) ≤ 60 ∧ (0 : ℚ) ≤ 0 ∧ (0 : ℚ) ≤ 60 ∧
    ((get_long_control_limits 0 0 0).1 ≤ (get_long_control_limits 0 0 100).1 ∧
     (get_long_control_limits 0 0 0).2 ≤ (get_long_control_limits 0 0 100).2 ∧
     (0 ≤ (get_long_control_limits 0 0 0).1 ∧ (get_long_control_limits 0 0 0).1 ≤ 1/8) ∧
     (0 ≤ (get_long_control_limits 0 0 0).2 ∧ (get_long_control_limits 0 0 0).2 ≤ 36/125)) :=
  ⟨le_refl 0, by norm_num, by norm_num, le_refl 0, by norm_num, le_refl 0, by norm_num,
   c8_control_limits_monotone_bounded 0 0 0 100 (le_refl 0) (by norm_num) (by norm_num)
     (le_refl 0) (by norm_num) (le_refl 0) (by norm_num)⟩

/-- Witness for claim C3's theorem at a concrete input. -/
theorem c3_witness :
    ((update_hca_state 0 false .disabled true).perm_fault = true ↔
      ((true = true ∧ HcaStatus.disabled = .disabled) ∨
        ((update_hca_state 0 false .disabled true).eps_init_complete = true ∧
          HcaStatus.disabled = .fault))) ∧
    ((update_hca_state 0 false .disabled true).temp_fault = true ↔
      ((true = true ∧ (HcaStatus.disabled = .rejected ∨ HcaStatus.disabled = .preempted)) ∨
        (update_hca_state 0 false .disabled true).eps_init_complete = false)) :=
  c3_hca_fault_classification 0 false .disabled true
